import Mathlib

/-!
Shallow embedding of the board-game reservation bot (src/main.py).

Modelling conventions:
* Timestamps are `Int` minutes.  The program stores dates as canonical
  `YYYY-MM-DD HH:MM:SS` strings whose lexicographic order is chronological and
  manipulates them through `datetime` values; linearising a datetime to minutes
  since the proleptic-Gregorian epoch (day-count as in Python
  `datetime.toordinal`) preserves every comparison and `timedelta` offset the
  program performs, so the embedding works with the linearised value directly.
* The sqlite tables `games`, `players`, `reminders` become lists of records in
  a `DB` structure; `AUTOINCREMENT` becomes the `nextId` counter.  Each SQL
  statement of the source is translated to the corresponding list operation.
* `context.user_data` (the per-identity wizard state) becomes the `UserData`
  record of optional fields; a missing dictionary key is `none`, and Python's
  `KeyError` on `user_data['k']` corresponds to the `none` branch of a match.
* Outgoing chat messages are abstracted to the `Reply` tags naming which
  `reply_text` of the source was issued; their literal Russian text plays no
  role in the claims.
-/

namespace BoardGameBot

/-- Row of the `games` table (src/main.py:38-48). -/
structure Game where
  id : Nat
  game_name : String
  game_date : Int
  creator_id : Nat
  max_players : Int
  descr : String
  photo_id : Option String
deriving DecidableEq

/-- Row of the `players` table (src/main.py:51-60); the join timestamp column
is defaulted by sqlite and never read by the program, so it is omitted. -/
structure Player where
  game_id : Nat
  user_id : Nat
  username : Option String
deriving DecidableEq

/-- Row of the `reminders` table (src/main.py:63-70).  The program creates the
table but never inserts into it or updates it. -/
structure ReminderRow where
  game_id : Nat
  user_id : Nat
  reminded : Bool
deriving DecidableEq

/-- The sqlite database: the three tables plus the AUTOINCREMENT counter of
`games.id` (fresh ids are never reused). -/
structure DB where
  games : List Game
  players : List Player
  reminders : List ReminderRow
  nextId : Nat
deriving DecidableEq

/-- `SELECT ... FROM games WHERE id = ?` (the `games.id` primary key). -/
def findGame (db : DB) (gid : Nat) : Option Game :=
  db.games.find? (fun g => g.id == gid)

/-- `SELECT COUNT(*) FROM players WHERE game_id = ?` — the `current_players`
subquery of `get_game_info` (src/main.py:106). -/
def currentPlayers (db : DB) (gid : Nat) : Nat :=
  (db.players.filter (fun p => p.game_id == gid)).length

/-- The `creator_name` column of `get_game_info` (LEFT JOIN on the creator's
player row, src/main.py:107-109). -/
def creatorName (db : DB) (gid creator : Nat) : Option String :=
  (db.players.find? (fun p => p.game_id == gid && p.user_id == creator)).bind
    (fun p => p.username)

/-- `get_game_info` (src/main.py:102-112): the game row together with the
current participant count and the creator's display name. -/
def get_game_info (db : DB) (gid : Nat) : Option (Game × Nat × Option String) :=
  (findGame db gid).map (fun g => (g, currentPlayers db gid, creatorName db gid g.creator_id))

/-- `get_game_participants` (src/main.py:115-117). -/
def get_game_participants (db : DB) (gid : Nat) : List Player :=
  db.players.filter (fun p => p.game_id == gid)

/-- `is_user_creator` (src/main.py:120-124).  Note that
`result and result[0] == user_id` is falsy when the game does not exist, so a
missing game yields `false` exactly like a foreign creator. -/
def is_user_creator (db : DB) (gid uid : Nat) : Bool :=
  match findGame db gid with
  | some g => g.creator_id == uid
  | none => false

/-- `is_user_joined` (src/main.py:127-130). -/
def is_user_joined (db : DB) (gid uid : Nat) : Bool :=
  db.players.any (fun p => p.game_id == gid && p.user_id == uid)

/-- Result of `book_game`, one constructor per user-visible outcome of
src/main.py:347-395. -/
inductive BookResult
  | notFound
  | full
  | alreadyJoined
  | ok
deriving DecidableEq

/-- `book_game` (src/main.py:347-395) as a state transformer.  The source
performs, in order: `get_game_info`, the capacity check
`max_players > 0 and current_players >= max_players`, the `is_user_joined`
check, and the `INSERT INTO players`.  None of these steps has an `await`
between them, so under the single asyncio event loop (and python-telegram-bot's
default sequential update processing) the whole check-then-insert region
executes without interleaving; it is therefore one atomic step of the model. -/
def book_game (db : DB) (gid uid : Nat) (username : Option String) : DB × BookResult :=
  match get_game_info db gid with
  | none => (db, BookResult.notFound)
  | some (g, current, _) =>
    if 0 < g.max_players ∧ g.max_players ≤ (current : Int) then
      (db, BookResult.full)
    else if is_user_joined db gid uid then
      (db, BookResult.alreadyJoined)
    else
      ({ db with players := db.players ++ [⟨gid, uid, username⟩] }, BookResult.ok)

/-- Result of `cancel_booking` (src/main.py:398-431).  The function never
checks that the game exists, so it has no not-found outcome. -/
inductive CancelResult
  | notJoined
  | ok
deriving DecidableEq

/-- `cancel_booking` (src/main.py:398-431): check membership, then
`DELETE FROM players WHERE game_id = ? AND user_id = ?`. -/
def cancel_booking (db : DB) (gid uid : Nat) : DB × CancelResult :=
  if is_user_joined db gid uid then
    ({ db with players := db.players.filter (fun p => !(p.game_id == gid && p.user_id == uid)) },
     CancelResult.ok)
  else
    (db, CancelResult.notJoined)

/-- Result of `delete_game` (src/main.py:434-478). -/
inductive DeleteResult
  | notCreator
  | notFound
  | ok
deriving DecidableEq

/-- Outcome of `delete_game`: new database, result tag, and the user ids the
function notifies after the deletion. -/
structure DeleteOutcome where
  db : DB
  result : DeleteResult
  notified : List Nat
deriving DecidableEq

/-- `delete_game` (src/main.py:434-478): creator check first (so a missing
game already answers `notCreator`), then the participant snapshot, the three
DELETE statements, and the notification loop that skips the requester. -/
def delete_game (db : DB) (gid uid : Nat) : DeleteOutcome :=
  if is_user_creator db gid uid then
    match get_game_info db gid with
    | none => ⟨db, DeleteResult.notFound, []⟩
    | some _ =>
      let participants := (db.players.filter (fun p => p.game_id == gid)).map
        (fun p => p.user_id)
      let db' : DB :=
        { db with
          games := db.games.filter (fun g => !(g.id == gid)),
          players := db.players.filter (fun p => !(p.game_id == gid)),
          reminders := db.reminders.filter (fun r => !(r.game_id == gid)) }
      ⟨db', DeleteResult.ok, participants.filter (fun p => !(p == uid))⟩
  else
    ⟨db, DeleteResult.notCreator, []⟩

/-- Ordering relation used by `ORDER BY game_date`. -/
def dateLe (a b : Game) : Prop := a.game_date ≤ b.game_date

instance : DecidableRel dateLe := fun a b => inferInstanceAs (Decidable (a.game_date ≤ b.game_date))

instance : IsTotal Game dateLe := ⟨fun a b => Int.le_total a.game_date b.game_date⟩

instance : IsTrans Game dateLe := ⟨fun _ _ _ h h' => le_trans h h'⟩

/-- The query of `show_upcoming_games` (src/main.py:163-169):
`WHERE game_date >= datetime('now') ORDER BY game_date`. -/
def show_upcoming_games (db : DB) (now : Int) : List Game :=
  List.insertionSort dateLe (db.games.filter (fun g => decide (now ≤ g.game_date)))

/-- An armed `job_queue.run_once` entry (src/main.py:531-546): the job name,
the absolute fire time, and the `data` payload (the game id).  `run_once`
fires the callback exactly once at `fireAt`; it performs no deduplication by
name, so arming twice yields two entries. -/
structure Job where
  name : String
  fireAt : Int
  gameId : Nat
deriving DecidableEq

/-- `schedule_reminders` (src/main.py:519-546): for the one-day and one-hour
offsets, arm a `run_once` job when the offset's fire time is still strictly in
the future.  Time deltas are in minutes: one day is 1440, one hour 60. -/
def schedule_reminders (db : DB) (now : Int) (gid : Nat) (jq : List Job) : List Job :=
  match get_game_info db gid with
  | none => jq
  | some (g, _, _) =>
    let jq1 :=
      if now < g.game_date - 1440 then
        jq ++ [⟨"reminder_1day_" ++ toString gid, g.game_date - 1440, gid⟩]
      else jq
    if now < g.game_date - 60 then
      jq1 ++ [⟨"reminder_1hour_" ++ toString gid, g.game_date - 60, gid⟩]
    else jq1

/-- Outcome of one `send_reminder` firing: the database afterwards (the
function only reads it) and, when a message goes out, the `time_left` text
variant with the recipient user ids. -/
structure ReminderOutcome where
  db : DB
  message : Option (String × List Nat)
deriving DecidableEq

/-- `send_reminder` (src/main.py:549-579): re-check that the game exists,
pick the text by `now < game_date - timedelta(hours=23)` (23 hours = 1380
minutes), and fan out to every participant.  No statement in the function
writes the database; in particular the `reminders` table is untouched. -/
def send_reminder (db : DB) (now : Int) (gid : Nat) : ReminderOutcome :=
  match get_game_info db gid with
  | none => ⟨db, none⟩
  | some (g, _, _) =>
    let time_left := if now < g.game_date - 1380 then "1 день" else "1 час"
    ⟨db, some (time_left, (get_game_participants db gid).map (fun p => p.user_id))⟩

/-- Values the source stores in `context.user_data['action']`. -/
inductive Action
  | creating_game
  | setting_game_date
  | setting_max_players
  | setting_descr
  | setting_photo
deriving DecidableEq

/-- `context.user_data` during game creation: each key of the Python dict
becomes an optional field (`none` = key absent). -/
structure UserData where
  action : Option Action
  game_name : Option String
  game_date : Option Int
  max_players : Option Int
  descr : Option String
  photo_id : Option String
deriving DecidableEq

/-- The cleared dictionary after `context.user_data.clear()`. -/
def emptyUserData : UserData := ⟨none, none, none, none, none, none⟩

/-- The distinct outgoing messages of the creation flow, one tag per
`reply_text` in src/main.py:200-281 (texts abstracted to tags). -/
inductive Reply
  | askDate
  | badDate
  | askMax
  | badMax
  | askDescr
  | askPhoto
  | needPhoto
  | created (gid : Nat)
  | genericError
  | menuShown
deriving DecidableEq

/-- ASCII case folding, modelling Python `str.lower` on the inputs the bot
compares (`'/skip'` and plain chat text). -/
def lowerChar (c : Char) : Char :=
  if 'A' ≤ c ∧ c ≤ 'Z' then Char.ofNat (c.toNat + 32) else c

/-- `update.message.text.lower()` (src/main.py:203). -/
def lowerStr (s : String) : String := ⟨s.data.map lowerChar⟩

/-- Splits a character list at every occurrence of the separator. -/
def splitOnChar (c : Char) : List Char → List (List Char)
  | [] => [[]]
  | x :: xs =>
    match splitOnChar c xs, x == c with
    | r, true => [] :: r
    | [], false => [[x]]
    | h :: t, false => (x :: h) :: t

/-- Reads an all-digit character list as a number (empty or non-digit ⟹
failure), as the regular expressions of `strptime` do. -/
def digits? : List Char → Option Nat
  | [] => none
  | l => l.foldl (fun acc c => match acc with
      | none => none
      | some n => if c.isDigit then some (n * 10 + (c.toNat - 48)) else none)
      (some 0)

/-- A numeric `strptime` field of at most `w` digits. -/
def fieldUpTo? (w : Nat) (l : List Char) : Option Nat :=
  if l.length ≤ w then digits? l else none

/-- Gregorian leap-year rule, as in Python `calendar`/`datetime`. -/
def isLeap (y : Nat) : Bool := (y % 4 == 0 && y % 100 != 0) || y % 400 == 0

/-- Length of a month, used by `datetime` to validate the day field. -/
def daysInMonth (y m : Nat) : Nat :=
  if m == 2 then (if isLeap y then 29 else 28)
  else if m == 4 || m == 6 || m == 9 || m == 11 then 30
  else 31

/-- Days before January 1 of year `y` (Python `date.toordinal` minus one). -/
def daysBeforeYear (y : Nat) : Nat :=
  let n := y - 1
  n * 365 + n / 4 - n / 100 + n / 400

/-- Days of year `y` that precede month `m`. -/
def daysBeforeMonth (y m : Nat) : Nat :=
  (List.range (m - 1)).foldl (fun acc i => acc + daysInMonth y (i + 1)) 0

/-- Linearisation of a datetime to minutes, compatible with the ordering and
`timedelta` arithmetic of Python `datetime`. -/
def toMinutes (y mo d h mi : Nat) : Int :=
  (((daysBeforeYear y + daysBeforeMonth y mo + (d - 1)) * 1440 + h * 60 + mi : Nat) : Int)

/-- `datetime.strptime(text, '%d.%m.%Y %H:%M')` (src/main.py:212): two
dot-separated date fields of at most two digits, a four-digit year, and
colon-separated hour and minute, validated against the calendar exactly as the
`datetime` constructor validates them.  Returns the linearised minutes. -/
def parseDisplayDate (s : String) : Option Int :=
  match splitOnChar ' ' s.data with
  | [dpart, tpart] =>
    match splitOnChar '.' dpart, splitOnChar ':' tpart with
    | [ds, ms, ys], [hs, mins] =>
      match fieldUpTo? 2 ds, fieldUpTo? 2 ms,
            (if ys.length == 4 then digits? ys else none),
            fieldUpTo? 2 hs, fieldUpTo? 2 mins with
      | some d, some mo, some y, some h, some mi =>
        if 1 ≤ mo ∧ mo ≤ 12 ∧ 1 ≤ d ∧ d ≤ daysInMonth y mo ∧ 1 ≤ y ∧ h ≤ 23 ∧ mi ≤ 59 then
          some (toMinutes y mo d h mi)
        else none
      | _, _, _, _, _ => none
    | _, _ => none
  | _ => none

/-- Python `int(text)` on chat input (src/main.py:221): an optional minus sign
followed by digits.  (Python also tolerates surrounding whitespace, a plus
sign and digit-group underscores; no claim exercises those forms.) -/
def parse_int (s : String) : Option Int :=
  match s.data with
  | '-' :: rest => (digits? rest).map (fun n => -(n : Int))
  | l => (digits? l).map (fun n => (n : Int))

/-- Result of one inbound text message: database, job registry, the user's
wizard state and the replies sent while handling the message. -/
structure MsgResult where
  db : DB
  jobs : List Job
  userData : UserData
  replies : List Reply
deriving DecidableEq

/-- `create_game_in_db` (src/main.py:246-281).  `user_data['game_name']` and
`user_data['game_date']` raise `KeyError` when absent — caught by the
`except` branch before anything is inserted, answered with the generic error
message.  Otherwise the game row and the creator's player row are inserted and
`schedule_reminders` is called on the fresh id.  The `finally` block clears
the wizard state and shows the menu on every path. -/
def create_game_in_db (ud : UserData) (uid : Nat) (username : Option String)
    (db : DB) (now : Int) (jobs : List Job) : MsgResult :=
  match ud.game_name, ud.game_date with
  | some name, some date =>
    let gid := db.nextId
    let db1 : DB :=
      { db with
        games := db.games ++
          [⟨gid, name, date, uid, (ud.max_players).getD 0, (ud.descr).getD "", ud.photo_id⟩],
        nextId := db.nextId + 1 }
    let db2 : DB := { db1 with players := db1.players ++ [⟨gid, uid, username⟩] }
    ⟨db2, schedule_reminders db2 now gid jobs, emptyUserData,
      [Reply.created gid, Reply.menuShown]⟩
  | _, _ =>
    ⟨db, jobs, emptyUserData, [Reply.genericError, Reply.menuShown]⟩

/-- `handle_message` (src/main.py:200-243) restricted to text messages (the
claims feed only text; `update.message.photo` is empty for them).  The source
is a flat `if/elif` chain on `user_data.get('action')` and the lowercased
text, whose final `else` falls through to `create_game_in_db`; in particular
the description step with text `'/skip'`, the photo step with `'/skip'`, and
any message with no pending action all reach the commit. -/
def handle_message (ud : UserData) (text : String) (uid : Nat) (username : Option String)
    (db : DB) (now : Int) (jobs : List Job) : MsgResult :=
  let low := lowerStr text
  match ud.action with
  | some Action.creating_game =>
    ⟨db, jobs, { ud with game_name := some text, action := some Action.setting_game_date },
      [Reply.askDate]⟩
  | some Action.setting_game_date =>
    match parseDisplayDate text with
    | some d =>
      ⟨db, jobs, { ud with game_date := some d, action := some Action.setting_max_players },
        [Reply.askMax]⟩
    | none => ⟨db, jobs, ud, [Reply.badDate]⟩
  | some Action.setting_max_players =>
    match parse_int text with
    | some n =>
      if n < 0 then ⟨db, jobs, ud, [Reply.badMax]⟩
      else
        ⟨db, jobs, { ud with max_players := some n, action := some Action.setting_descr },
          [Reply.askDescr]⟩
    | none => ⟨db, jobs, ud, [Reply.badMax]⟩
  | some Action.setting_descr =>
    if low ≠ "/skip" then
      ⟨db, jobs, { ud with descr := some text, action := some Action.setting_photo },
        [Reply.askPhoto]⟩
    else
      create_game_in_db ud uid username db now jobs
  | some Action.setting_photo =>
    if low ≠ "/skip" then ⟨db, jobs, ud, [Reply.needPhoto]⟩
    else create_game_in_db ud uid username db now jobs
  | none => create_game_in_db ud uid username db now jobs

/-- Feeds a sequence of text messages from one user through `handle_message`,
threading database, jobs and wizard state and accumulating the replies. -/
def runMsgs (uid : Nat) (username : Option String) (now : Int) :
    MsgResult → List String → MsgResult
  | st, [] => st
  | st, t :: ts =>
    let r := handle_message st.userData t uid username st.db now st.jobs
    runMsgs uid username now { r with replies := st.replies ++ r.replies } ts

/-- Runs `book_game` over a batch of join requests in arrival order.  Because
each `book_game` is one atomic step (see `book_game`), any concurrent
interleaving of the requests executes as this fold over some arrival order;
the order is an arbitrary parameter of the theorems. -/
def runJoins (db : DB) (gid : Nat) : List Nat → DB × List BookResult
  | [] => (db, [])
  | uid :: rest =>
    match book_game db gid uid none with
    | (db', r) =>
      match runJoins db' gid rest with
      | (db'', rs) => (db'', r :: rs)

/-- Number of `ok` outcomes in a result list. -/
def countOk : List BookResult → Nat
  | [] => 0
  | BookResult.ok :: rs => countOk rs + 1
  | _ :: rs => countOk rs

/-- Number of `full` outcomes in a result list. -/
def countFull : List BookResult → Nat
  | [] => 0
  | BookResult.full :: rs => countFull rs + 1
  | _ :: rs => countFull rs

/-! ### Helper lemmas about `book_game` -/

theorem book_game_full (db : DB) (gid uid : Nat) (un : Option String) (g : Game)
    (hg : findGame db gid = some g)
    (h : 0 < g.max_players ∧ g.max_players ≤ (currentPlayers db gid : Int)) :
    book_game db gid uid un = (db, BookResult.full) := by
  simp [book_game, get_game_info, hg, h]

theorem book_game_already (db : DB) (gid uid : Nat) (un : Option String) (g : Game)
    (hg : findGame db gid = some g)
    (hnf : ¬(0 < g.max_players ∧ g.max_players ≤ (currentPlayers db gid : Int)))
    (hj : is_user_joined db gid uid = true) :
    book_game db gid uid un = (db, BookResult.alreadyJoined) := by
  simp [book_game, get_game_info, hg, hnf, hj]

theorem book_game_ok (db : DB) (gid uid : Nat) (un : Option String) (g : Game)
    (hg : findGame db gid = some g)
    (hnf : ¬(0 < g.max_players ∧ g.max_players ≤ (currentPlayers db gid : Int)))
    (hj : is_user_joined db gid uid = false) :
    book_game db gid uid un =
      ({ db with players := db.players ++ [⟨gid, uid, un⟩] }, BookResult.ok) := by
  simp [book_game, get_game_info, hg, hnf, hj]

theorem findGame_addPlayer (db : DB) (gid' : Nat) (row : Player) :
    findGame { db with players := db.players ++ [row] } gid' = findGame db gid' := rfl

theorem currentPlayers_addPlayer_same (db : DB) (gid uid : Nat) (un : Option String) :
    currentPlayers { db with players := db.players ++ [(⟨gid, uid, un⟩ : Player)] } gid
      = currentPlayers db gid + 1 := by
  simp [currentPlayers, List.filter_append]

theorem is_user_joined_addPlayer_ne (db : DB) (gid uid : Nat) (un : Option String)
    (u : Nat) (hne : u ≠ uid) :
    is_user_joined { db with players := db.players ++ [(⟨gid, uid, un⟩ : Player)] } gid u
      = is_user_joined db gid u := by
  simp [is_user_joined, List.any_append, Ne.symm hne]

theorem is_user_joined_of_count_zero (db : DB) (gid : Nat)
    (h : currentPlayers db gid = 0) (u : Nat) :
    is_user_joined db gid u = false := by
  rw [currentPlayers, List.length_eq_zero, List.filter_eq_nil_iff] at h
  rw [is_user_joined, List.any_eq_false]
  intro p hp
  have hgid : ¬(p.game_id == gid) = true := h p hp
  simp_all

/-- Core induction for the capacity invariant: folding any arrival order of
distinct, not-yet-joined identities over `book_game` fills exactly the free
seats and refuses the rest, never letting the count pass the capacity. -/
theorem runJoins_general (gid : Nat) (g : Game) (C : Nat) (hC : 0 < C) :
    ∀ (uids : List Nat) (db db2 : DB) (rs : List BookResult),
      findGame db gid = some g → g.max_players = (C : Int) →
      uids.Nodup → (∀ u ∈ uids, is_user_joined db gid u = false) →
      currentPlayers db gid ≤ C →
      runJoins db gid uids = (db2, rs) →
      countOk rs = min C (currentPlayers db gid + uids.length) - currentPlayers db gid
        ∧ countFull rs
          = uids.length - (min C (currentPlayers db gid + uids.length) - currentPlayers db gid)
        ∧ currentPlayers db2 gid = min C (currentPlayers db gid + uids.length)
        ∧ db2.games = db.games := by
  intro uids
  induction uids with
  | nil =>
    intro db db2 rs hg hmax hnd hj hle hrun
    rw [runJoins] at hrun
    injection hrun with hdb hrs
    subst hdb; subst hrs
    refine ⟨by simp [countOk], by simp [countFull], by simp; omega, rfl⟩
  | cons uid rest ih =>
    intro db db2 rs hg hmax hnd hj hle hrun
    rcases List.nodup_cons.mp hnd with ⟨huid, hnd'⟩
    by_cases hfull : C ≤ currentPlayers db gid
    · have hcond : 0 < g.max_players ∧ g.max_players ≤ (currentPlayers db gid : Int) := by
        rw [hmax]
        exact ⟨by exact_mod_cast hC, by exact_mod_cast hfull⟩
      have hbg := book_game_full db gid uid none g hg hcond
      rcases hrest : runJoins db gid rest with ⟨da, ra⟩
      rw [runJoins, hbg] at hrun
      dsimp only at hrun
      rw [hrest] at hrun
      injection hrun with hdb hrs
      subst hdb; subst hrs
      obtain ⟨h1, h2, h3, h4⟩ :=
        ih db da ra hg hmax hnd' (fun u hu => hj u (List.mem_cons_of_mem _ hu)) hle hrest
      simp only [countOk, countFull, List.length_cons]
      exact ⟨by omega, by omega, by omega, h4⟩
    · have hcond : ¬(0 < g.max_players ∧ g.max_players ≤ (currentPlayers db gid : Int)) := by
        rw [hmax]
        rintro ⟨-, hge⟩
        exact hfull (by exact_mod_cast hge)
      have hbg := book_game_ok db gid uid none g hg hcond (hj uid (List.mem_cons_self _ _))
      have hg' : findGame { db with players := db.players ++ [(⟨gid, uid, none⟩ : Player)] } gid
          = some g := hg
      have hcur' :
          currentPlayers { db with players := db.players ++ [(⟨gid, uid, none⟩ : Player)] } gid
            = currentPlayers db gid + 1 :=
        currentPlayers_addPlayer_same db gid uid none
      have hj' : ∀ u ∈ rest,
          is_user_joined { db with players := db.players ++ [(⟨gid, uid, none⟩ : Player)] } gid u
            = false := by
        intro u hu
        have hne : u ≠ uid := by
          rintro rfl
          exact huid hu
        rw [is_user_joined_addPlayer_ne db gid uid none u hne]
        exact hj u (List.mem_cons_of_mem _ hu)
      have hle' :
          currentPlayers { db with players := db.players ++ [(⟨gid, uid, none⟩ : Player)] } gid
            ≤ C := by omega
      rcases hrest :
          runJoins { db with players := db.players ++ [(⟨gid, uid, none⟩ : Player)] } gid rest
        with ⟨da, ra⟩
      rw [runJoins, hbg] at hrun
      dsimp only at hrun
      rw [hrest] at hrun
      injection hrun with hdb hrs
      subst hdb; subst hrs
      obtain ⟨h1, h2, h3, h4⟩ := ih _ da ra hg' hmax hnd' hj' hle' hrest
      rw [hcur'] at h1 h2 h3
      simp only [countOk, countFull, List.length_cons]
      exact ⟨by omega, by omega, by omega, h4⟩

/-! ### C1 -/

/-- C1: for an event with capacity `C > 0` and no participants, any concurrent
interleaving of `N ≥ C` joins by distinct identities (which, `book_game` being
one atomic step between `await` points, is the sequential fold over some
arrival order) produces exactly `C` `ok` results and `N - C` `full` results,
and the participant count never exceeds `C` at any prefix of the run. -/
theorem c1_concurrent_join_capacity (db : DB) (gid : Nat) (g : Game) (C : Nat)
    (uids : List Nat)
    (hg : findGame db gid = some g) (hmax : g.max_players = (C : Int)) (hC : 0 < C)
    (hnd : uids.Nodup) (hcnt : currentPlayers db gid = 0) (hN : C ≤ uids.length) :
    countOk (runJoins db gid uids).2 = C
      ∧ countFull (runJoins db gid uids).2 = uids.length - C
      ∧ ∀ pre suf, uids = pre ++ suf → currentPlayers (runJoins db gid pre).1 gid ≤ C := by
  have hj : ∀ u ∈ uids, is_user_joined db gid u = false :=
    fun u _ => is_user_joined_of_count_zero db gid hcnt u
  rcases hr : runJoins db gid uids with ⟨db2, rs⟩
  obtain ⟨h1, h2, h3, h4⟩ :=
    runJoins_general gid g C hC uids db db2 rs hg hmax hnd hj (by omega) hr
  rw [hcnt] at h1 h2 h3
  refine ⟨?_, ?_, ?_⟩
  · show countOk rs = C
    omega
  · show countFull rs = uids.length - C
    omega
  · intro pre suf heq
    have hndp : pre.Nodup := (List.nodup_append.mp (heq ▸ hnd)).1
    have hjp : ∀ u ∈ pre, is_user_joined db gid u = false :=
      fun u _ => is_user_joined_of_count_zero db gid hcnt u
    rcases hp : runJoins db gid pre with ⟨dbp, rsp⟩
    obtain ⟨-, -, h3p, -⟩ :=
      runJoins_general gid g C hC pre db dbp rsp hg hmax hndp hjp (by omega) hp
    show currentPlayers dbp gid ≤ C
    rw [hcnt] at h3p
    omega

/-- Concrete event for the C1 witness: capacity 1, nobody joined yet. -/
def gameC1w : Game := ⟨1, "G", 100, 9, 1, "", none⟩

/-- Database for the C1 witness. -/
def dbC1w : DB := ⟨[gameC1w], [], [], 2⟩

/-- C1 witness: two racing joins on the last free seat (capacity 1, empty
event) give exactly one `ok` and one `full`. -/
theorem c1_concurrent_join_capacity_witness :
    countOk (runJoins dbC1w 1 [3, 4]).2 = 1 ∧ countFull (runJoins dbC1w 1 [3, 4]).2 = 1 := by
  have h := c1_concurrent_join_capacity dbC1w 1 gameC1w 1 [3, 4] rfl rfl (by decide)
    (by decide) rfl (by decide)
  exact ⟨h.1, h.2.1⟩

/-! ### C2 -/

/-- The two job names of one event have different lengths, hence differ. -/
theorem reminder_names_ne (s : String) : "reminder_1day_" ++ s ≠ "reminder_1hour_" ++ s := by
  intro h
  have hl := congrArg String.length h
  rw [String.length_append, String.length_append] at hl
  have h14 : ("reminder_1day_" : String).length = 14 := rfl
  have h15 : ("reminder_1hour_" : String).length = 15 := rfl
  omega

/-- Database for the C2 counterexample: one game one hour from `1103966940`,
with one participant, and (as always in this program) an empty `reminders`
table. -/
def dbC2 : DB := ⟨[⟨1, "G", 1103967000, 9, 0, "", none⟩], [⟨1, 9, some "u"⟩], [], 2⟩

/-- C2 counterexample: a reminder job executes, its notification fan-out
completes (a message with a recipient list is produced), yet the database is
untouched — no `ReminderJob` record is marked fired; indeed the `reminders`
table is empty before and after, so no record for (event 1, hour offset)
exists at all, contradicting the claim that the record is marked fired when
the fan-out completes. -/
theorem c2_reminder_fired_flag_counterexample :
    (send_reminder dbC2 1103966940 1).message = some ("1 час", [9])
      ∧ (send_reminder dbC2 1103966940 1).db = dbC2
      ∧ dbC2.reminders = [] := by
  refine ⟨?_, rfl, rfl⟩
  decide

/-- C2 (amended): arming never adds a job whose fire-time has already passed
(the jobs whose fire-time is at or before `now` are exactly those that were
already in the registry, so a re-arm after an offset's fire-time — in
particular after it fired — is a no-op for that offset); one arm call
registers at most one job per name, i.e. per (event id, offset kind); and a
firing never writes the database, so no `ReminderJob` record is ever created
or marked.  Each registry entry fires exactly once at its fire time, which is
the `run_once` contract recorded in `Job`. -/
theorem c2_reminder_arm_once (db : DB) (now : Int) (gid : Nat) (jq : List Job) (n : String) :
    (schedule_reminders db now gid jq).filter (fun j => decide (j.fireAt ≤ now))
        = jq.filter (fun j => decide (j.fireAt ≤ now))
      ∧ ((schedule_reminders db now gid []).filter (fun j => j.name == n)).length ≤ 1
      ∧ (send_reminder db now gid).db = db := by
  refine ⟨?_, ?_, ?_⟩
  · rw [schedule_reminders]
    match hgi : get_game_info db gid with
    | none => rfl
    | some (g, c, cn) =>
      by_cases hday : now < g.game_date - 1440 <;>
        by_cases hhour : now < g.game_date - 60 <;>
          simp [hday, hhour, List.filter_append]
  · rw [schedule_reminders]
    match hgi : get_game_info db gid with
    | none => simp
    | some (g, c, cn) =>
      by_cases hday : now < g.game_date - 1440 <;>
        by_cases hhour : now < g.game_date - 60 <;>
          simp [hday, hhour, List.filter_append, List.filter]
      · by_cases hd : (("reminder_1day_" ++ toString gid : String) == n) = true <;>
          by_cases hh : (("reminder_1hour_" ++ toString gid : String) == n) = true <;>
            simp [hd, hh]
        exact absurd ((beq_iff_eq.mp hd).trans (beq_iff_eq.mp hh).symm)
          (reminder_names_ne (toString gid))
      · by_cases hd : (("reminder_1day_" ++ toString gid : String) == n) = true <;> simp [hd]
      · by_cases hh : (("reminder_1hour_" ++ toString gid : String) == n) = true <;> simp [hh]
  · rw [send_reminder]
    match hgi : get_game_info db gid with
    | none => rfl
    | some (g, c, cn) => rfl

/-! ### C3 -/

/-- Empty initial database (fresh store; `AUTOINCREMENT` ids start at 1). -/
def db0 : DB := ⟨[], [], [], 1⟩

/-- Draft for the C3 counterexample: a title and a start time of minute 5 —
far in the past relative to the commit instant `now = 1000`. -/
def udPast : UserData := ⟨none, some "Chess", some 5, none, none, none⟩

/-- C3 counterexample: committing a draft whose start time (5) is before
"now" (1000) succeeds and inserts the event — `create_game_in_db` performs no
validation at all, so an event with a past start time is committed, against
the claim that the commit fails with `ValidationError` whenever the start
time is not strictly in the future. -/
theorem c3_commit_validation_counterexample :
    (create_game_in_db udPast 7 none db0 1000 []).replies = [Reply.created 1, Reply.menuShown]
      ∧ (create_game_in_db udPast 7 none db0 1000 []).db.games.map Game.game_date = [5]
      ∧ (5 : Int) ≤ 1000 := by
  decide

/-- C3 (amended): the commit fails — leaving the store untouched and replying
with the generic error — exactly when the draft lacks a title or a start
time (the `KeyError` fields); otherwise it inserts the event with the draft's
fields as they are, together with the creator's participant row.  No
validation of title emptiness, start-time futureness or capacity sign happens
at commit time. -/
theorem c3_commit_spec (ud : UserData) (uid : Nat) (un : Option String) (db : DB)
    (now : Int) (jobs : List Job) :
    ((create_game_in_db ud uid un db now jobs).db = db
        ↔ (ud.game_name = none ∨ ud.game_date = none))
      ∧ ((ud.game_name = none ∨ ud.game_date = none) →
          (create_game_in_db ud uid un db now jobs).replies
            = [Reply.genericError, Reply.menuShown])
      ∧ (∀ name date, ud.game_name = some name → ud.game_date = some date →
          (create_game_in_db ud uid un db now jobs).db.games
              = db.games ++ [⟨db.nextId, name, date, uid, (ud.max_players).getD 0,
                  (ud.descr).getD "", ud.photo_id⟩]
            ∧ (create_game_in_db ud uid un db now jobs).db.players
              = db.players ++ [⟨db.nextId, uid, un⟩]
            ∧ (create_game_in_db ud uid un db now jobs).replies
              = [Reply.created db.nextId, Reply.menuShown]) := by
  cases hn : ud.game_name with
  | none =>
    refine ⟨by simp [create_game_in_db, hn], fun _ => by simp [create_game_in_db, hn], ?_⟩
    intro name date hname hdate
    exact absurd hname (by simp)
  | some name0 =>
    cases hd : ud.game_date with
    | none =>
      refine ⟨by simp [create_game_in_db, hn, hd], fun _ => by simp [create_game_in_db, hn, hd], ?_⟩
      intro name date hname hdate
      exact absurd hdate (by simp)
    | some date0 =>
      refine ⟨?_, ?_, ?_⟩
      · simp only [create_game_in_db, hn, hd]
        constructor
        · intro hEq
          have := congrArg DB.nextId hEq
          simp at this
        · rintro (h | h) <;> simp at h
      · rintro (h | h) <;> exact absurd h (by simp)
      · intro name date hname hdate
        obtain rfl := Option.some.inj hname
        obtain rfl := Option.some.inj hdate
        refine ⟨?_, ?_, ?_⟩ <;> simp [create_game_in_db, hn, hd]

/-- C3 witness: committing an empty draft answers with the generic error. -/
theorem c3_commit_spec_witness :
    (create_game_in_db emptyUserData 7 none db0 1000 []).replies
      = [Reply.genericError, Reply.menuShown] :=
  (c3_commit_spec emptyUserData 7 none db0 1000 []).2.1 (Or.inl rfl)

/-! ### C4 -/

/-- The wizard state set by `create_game_step1` (src/main.py:192-197): only
`action = 'creating_game'` is written. -/
def wizardStart : UserData := { emptyUserData with action := some Action.creating_game }

/-- The inputs of the C4 scenario, in order. -/
def chessInputs : List String := ["Chess Night", "31.12.2099 18:00", "4", "/skip", "/skip"]

/-- State after feeding the first `k` scenario inputs, sent by identity 7
(display name "alice") against the empty store at time 0. -/
def chessState (k : Nat) : MsgResult :=
  runMsgs 7 (some "alice") 0 ⟨db0, [], wizardStart, []⟩ (chessInputs.take k)

/-- C4 counterexample: after the fourth input — the skip at the description
step — the wizard is *not* at the media-collection step (its state is already
cleared) and the event is already committed, contradicting the claim that
this skip advances to the media-collection step before committing. -/
theorem c4_skip_step_counterexample :
    (chessState 4).userData.action ≠ some Action.setting_photo
      ∧ (chessState 4).db.games.length = 1 := by
  decide

/-- C4 (amended): the five inputs yield a committed event with title
"Chess Night", capacity 4, empty description, no media, and identity 7 as its
creator and sole participant — but the skip at the description step commits
immediately (the fourth input already produces the final store; the fifth
input only triggers the no-draft error path and changes nothing). -/
theorem c4_wizard_run :
    (chessState 5).db.games = [⟨1, "Chess Night", 1103967000, 7, 4, "", none⟩]
      ∧ (chessState 5).db.players = [⟨1, 7, some "alice"⟩]
      ∧ (chessState 5).userData = emptyUserData
      ∧ (chessState 4).db = (chessState 5).db
      ∧ parseDisplayDate "31.12.2099 18:00" = some 1103967000
      ∧ is_user_creator (chessState 5).db 1 7 = true := by
  decide

/-! ### C5 -/

/-- C5 counterexample: deleting a nonexistent event (the store is empty)
answers `notCreator`, not `notFound` — `is_user_creator` is falsy for a
missing game and is checked first, so the not-found branch is unreachable. -/
theorem c5_delete_missing_counterexample :
    (delete_game db0 1 5).result = DeleteResult.notCreator
      ∧ DeleteResult.notCreator ≠ DeleteResult.notFound := by
  decide

/-- C5 (amended): `delete_game` changes nothing and answers `notCreator` both
for a foreign requester and for a nonexistent event id; for the creator it
removes the event with all its participant and reminder rows and notifies the
prior participants other than the requester, after which `getEvent` and
`join` report the event as missing while `cancel` reports `notJoined` (it
never checks event existence). -/
theorem c5_delete_spec (db : DB) (gid uid : Nat) :
    (is_user_creator db gid uid = false →
        delete_game db gid uid = ⟨db, DeleteResult.notCreator, []⟩)
      ∧ ((∀ g ∈ db.games, g.id ≠ gid) →
        (delete_game db gid uid).result = DeleteResult.notCreator)
      ∧ (is_user_creator db gid uid = true →
        (delete_game db gid uid).result = DeleteResult.ok
          ∧ findGame (delete_game db gid uid).db gid = none
          ∧ (∀ p ∈ (delete_game db gid uid).db.players, p.game_id ≠ gid)
          ∧ (∀ r ∈ (delete_game db gid uid).db.reminders, r.game_id ≠ gid)
          ∧ (delete_game db gid uid).notified
            = ((db.players.filter (fun p => p.game_id == gid)).map
                (fun p => p.user_id)).filter (fun p => !(p == uid))
          ∧ (∀ (x : Nat) (un : Option String),
              (book_game (delete_game db gid uid).db gid x un).2 = BookResult.notFound)
          ∧ (∀ x : Nat,
              (cancel_booking (delete_game db gid uid).db gid x).2 = CancelResult.notJoined)
          ∧ get_game_info (delete_game db gid uid).db gid = none) := by
  refine ⟨?_, ?_, ?_⟩
  · intro hnc
    simp [delete_game, hnc]
  · intro hng
    have hfind : findGame db gid = none := by
      rw [findGame, List.find?_eq_none]
      intro g hg
      simp [hng g hg]
    have hnc : is_user_creator db gid uid = false := by
      rw [is_user_creator, hfind]
    simp [delete_game, hnc]
  · intro hc
    cases hfg : findGame db gid with
    | none =>
      rw [is_user_creator, hfg] at hc
      exact absurd hc (by simp)
    | some g =>
      have hgi : get_game_info db gid
          = some (g, currentPlayers db gid, creatorName db gid g.creator_id) := by
        rw [get_game_info, hfg]
        rfl
      have hdel : delete_game db gid uid =
          ⟨⟨db.games.filter (fun g2 => !(g2.id == gid)),
            db.players.filter (fun p => !(p.game_id == gid)),
            db.reminders.filter (fun r => !(r.game_id == gid)),
            db.nextId⟩,
           DeleteResult.ok,
           ((db.players.filter (fun p => p.game_id == gid)).map
             (fun p => p.user_id)).filter (fun p => !(p == uid))⟩ := by
        simp [delete_game, hc, hgi]
      rw [hdel]
      have hfind2 : findGame
          (⟨db.games.filter (fun g2 => !(g2.id == gid)),
            db.players.filter (fun p => !(p.game_id == gid)),
            db.reminders.filter (fun r => !(r.game_id == gid)),
            db.nextId⟩ : DB) gid = none := by
        rw [findGame, List.find?_eq_none]
        intro x hx
        have := (List.mem_filter.mp hx).2
        simp at this
        simp [this]
      have hjoin2 : ∀ x : Nat, is_user_joined
          (⟨db.games.filter (fun g2 => !(g2.id == gid)),
            db.players.filter (fun p => !(p.game_id == gid)),
            db.reminders.filter (fun r => !(r.game_id == gid)),
            db.nextId⟩ : DB) gid x = false := by
        intro x
        rw [is_user_joined, List.any_eq_false]
        intro p hp
        have := (List.mem_filter.mp hp).2
        simp at this
        simp [this]
      refine ⟨rfl, hfind2, ?_, ?_, rfl, ?_, ?_, ?_⟩
      · intro p hp
        have := (List.mem_filter.mp hp).2
        simpa using this
      · intro r hr
        have := (List.mem_filter.mp hr).2
        simpa using this
      · intro x un
        simp [book_game, get_game_info, hfind2]
      · intro x
        simp [cancel_booking, hjoin2 x]
      · simp [get_game_info, hfind2]

/-- Database for the C5 witness: event 1 owned by identity 9 with one other
participant (8) and one reminder row. -/
def dbC5w : DB :=
  ⟨[⟨1, "G", 100, 9, 2, "", none⟩], [⟨1, 9, some "u"⟩, ⟨1, 8, none⟩], [⟨1, 9, false⟩], 2⟩

/-- C5 witness: a foreign requester is refused on a missing event, and the
creator's delete removes the event, notifies participant 8, and leaves the id
reporting not-found to lookups and joins, not-joined to cancels. -/
theorem c5_delete_spec_witness :
    (delete_game db0 1 5).result = DeleteResult.notCreator
      ∧ (delete_game dbC5w 1 9).result = DeleteResult.ok
      ∧ findGame (delete_game dbC5w 1 9).db 1 = none
      ∧ (book_game (delete_game dbC5w 1 9).db 1 8 none).2 = BookResult.notFound
      ∧ (cancel_booking (delete_game dbC5w 1 9).db 1 8).2 = CancelResult.notJoined := by
  have h0 := (c5_delete_spec db0 1 5).2.1 (by intro g hg; cases hg)
  obtain ⟨hok, hfind, -, -, -, hbook, hcancel, -⟩ := (c5_delete_spec dbC5w 1 9).2.2 rfl
  exact ⟨h0, hok, hfind, hbook 8 none, hcancel 8⟩

/-! ### C6 -/

/-- Database for the C6 counterexample: event 1 has capacity 2 and is full,
and identity 8 is one of its two participants. -/
def dbC6 : DB := ⟨[⟨1, "G", 100, 9, 2, "", none⟩], [⟨1, 8, none⟩, ⟨1, 9, none⟩], [], 2⟩

/-- C6 counterexample: identity 8 is already recorded as a participant, yet
its join answers `full`, not `alreadyJoined` — the capacity check precedes
the membership check in `book_game`. -/
theorem c6_already_joined_counterexample :
    is_user_joined dbC6 1 8 = true
      ∧ (book_game dbC6 1 8 none).2 = BookResult.full
      ∧ BookResult.full ≠ BookResult.alreadyJoined := by
  decide

/-- C6 (amended): with the event present, a join is never `full` when the
capacity is 0; with positive capacity it is `full` exactly when the count at
the check is at least the capacity; an already-joined identity is answered
`alreadyJoined` only when the event is not full (the capacity check comes
first), and in every case an already-joined identity causes no second row. -/
theorem c6_join_spec (db : DB) (gid uid : Nat) (un : Option String) (g : Game)
    (hg : findGame db gid = some g) :
    (g.max_players = 0 → (book_game db gid uid un).2 ≠ BookResult.full)
      ∧ (0 < g.max_players →
          ((book_game db gid uid un).2 = BookResult.full
            ↔ g.max_players ≤ (currentPlayers db gid : Int)))
      ∧ (is_user_joined db gid uid = true →
          ¬(0 < g.max_players ∧ g.max_players ≤ (currentPlayers db gid : Int)) →
          book_game db gid uid un = (db, BookResult.alreadyJoined))
      ∧ (is_user_joined db gid uid = true → (book_game db gid uid un).1 = db) := by
  refine ⟨?_, ?_, ?_, ?_⟩
  · intro h0
    have hnf : ¬(0 < g.max_players ∧ g.max_players ≤ (currentPlayers db gid : Int)) := by
      rw [h0]
      rintro ⟨h, -⟩
      exact lt_irrefl 0 h
    cases hj : is_user_joined db gid uid with
    | true => rw [book_game_already db gid uid un g hg hnf hj]; simp
    | false => rw [book_game_ok db gid uid un g hg hnf hj]; simp
  · intro hpos
    constructor
    · intro hres
      by_cases hcond : 0 < g.max_players ∧ g.max_players ≤ (currentPlayers db gid : Int)
      · exact hcond.2
      · cases hj : is_user_joined db gid uid with
        | true => rw [book_game_already db gid uid un g hg hcond hj] at hres; cases hres
        | false => rw [book_game_ok db gid uid un g hg hcond hj] at hres; cases hres
    · intro hge
      rw [book_game_full db gid uid un g hg ⟨hpos, hge⟩]
  · exact fun hj hnf => book_game_already db gid uid un g hg hnf hj
  · intro hj
    by_cases hcond : 0 < g.max_players ∧ g.max_players ≤ (currentPlayers db gid : Int)
    · rw [book_game_full db gid uid un g hg hcond]
    · rw [book_game_already db gid uid un g hg hcond hj]

/-- Database for the C6 witness: capacity 2, identity 8 already joined, one
seat still free. -/
def dbC6w : DB := ⟨[⟨1, "G", 100, 9, 2, "", none⟩], [⟨1, 8, none⟩], [], 2⟩

/-- C6 witness: an already-joined identity on a non-full event is answered
`alreadyJoined` and the store is unchanged. -/
theorem c6_join_spec_witness :
    book_game dbC6w 1 8 none = (dbC6w, BookResult.alreadyJoined) :=
  (c6_join_spec dbC6w 1 8 none ⟨1, "G", 100, 9, 2, "", none⟩ rfl).2.2.1 (by decide) (by decide)

/-! ### C7 -/

/-- Event whose start time equals the query instant of the C7
counterexample. -/
def gameNow : Game := ⟨1, "G", 100, 9, 0, "", none⟩

/-- Database for the C7 counterexample. -/
def dbC7 : DB := ⟨[gameNow], [], [], 2⟩

/-- C7 counterexample: the query `game_date >= now` is inclusive, so an event
starting exactly at the query instant is listed although its start time is
not strictly in the future. -/
theorem c7_upcoming_boundary_counterexample :
    gameNow ∈ show_upcoming_games dbC7 100 ∧ ¬(100 < gameNow.game_date) := by
  decide

/-- C7 (amended): the upcoming list contains exactly the events whose start
time is at or after the query instant — so never one strictly in the past,
but one starting exactly "now" is included — in ascending start-time
order. -/
theorem c7_upcoming_spec (db : DB) (now : Int) :
    List.Sorted dateLe (show_upcoming_games db now)
      ∧ ∀ g : Game, g ∈ show_upcoming_games db now ↔ g ∈ db.games ∧ now ≤ g.game_date := by
  constructor
  · exact List.sorted_insertionSort dateLe _
  · intro g
    rw [show_upcoming_games, (List.perm_insertionSort dateLe _).mem_iff]
    simp [List.mem_filter]

/-! ### C8 -/

/-- C8: when the reminder job executes, a missing event produces no message
(and the store is never written); an existing event produces the fan-out to
all its participants with the "1 день" variant exactly when strictly more
than 23 hours (1380 minutes) remain until the start, "1 час" otherwise. -/
theorem c8_send_reminder_spec (db : DB) (now : Int) (gid : Nat) :
    (send_reminder db now gid).db = db
      ∧ (findGame db gid = none → (send_reminder db now gid).message = none)
      ∧ (∀ g, findGame db gid = some g →
          (send_reminder db now gid).message
            = some ((if 1380 < g.game_date - now then "1 день" else "1 час"),
                (get_game_participants db gid).map (fun p => p.user_id))) := by
  refine ⟨?_, ?_, ?_⟩
  · rw [send_reminder]
    match hgi : get_game_info db gid with
    | none => rfl
    | some (g, c, cn) => rfl
  · intro hn
    simp [send_reminder, get_game_info, hn]
  · intro g hgf
    have hgi : get_game_info db gid
        = some (g, currentPlayers db gid, creatorName db gid g.creator_id) := by
      rw [get_game_info, hgf]
      rfl
    have hcond : (if now < g.game_date - 1380 then "1 день" else "1 час")
        = (if 1380 < g.game_date - now then "1 день" else "1 час") := by
      by_cases h : now < g.game_date - 1380
      · rw [if_pos h, if_pos (by omega)]
      · rw [if_neg h, if_neg (by omega)]
    rw [send_reminder, hgi]
    dsimp only
    rw [hcond]

/-- Database for the C8 witness: one game at minute 10000 with participant 9. -/
def dbC8w : DB := ⟨[⟨1, "G", 10000, 9, 0, "", none⟩], [⟨1, 9, none⟩], [], 2⟩

/-- C8 witness: firing at minute 100, more than 23 hours before the start,
sends the "1 день" variant to participant 9. -/
theorem c8_send_reminder_spec_witness :
    (send_reminder dbC8w 100 1).message = some ("1 день", [9]) := by
  have h := (c8_send_reminder_spec dbC8w 100 1).2.2 ⟨1, "G", 10000, 9, 0, "", none⟩ rfl
  simpa using h

/-! ### C9 -/

/-- C9: the commit clears the per-identity wizard state on every exit path —
the resulting `user_data` is the cleared dictionary whether the commit
succeeded or failed, so no draft field survives — and the menu is shown last
in both cases. -/
theorem c9_commit_clears_state (ud : UserData) (uid : Nat) (un : Option String)
    (db : DB) (now : Int) (jobs : List Job) :
    (create_game_in_db ud uid un db now jobs).userData = emptyUserData
      ∧ (create_game_in_db ud uid un db now jobs).replies.getLast? = some Reply.menuShown := by
  cases hn : ud.game_name <;> cases hd : ud.game_date <;> simp [create_game_in_db, hn, hd]

/-! ### C10 -/

/-- C10: a text message arriving with no wizard step pending (no `action`
key, hence — the only reachable such state — no draft fields either) falls
through to the commit path, which fails on the missing draft, replies with
the generic error, clears the state and shows the menu; the store and job
registry are untouched, so no event is ever created by stray text. -/
theorem c10_stray_text (ud : UserData) (text : String) (uid : Nat) (un : Option String)
    (db : DB) (now : Int) (jobs : List Job)
    (hact : ud.action = none) (hname : ud.game_name = none) :
    handle_message ud text uid un db now jobs
      = ⟨db, jobs, emptyUserData, [Reply.genericError, Reply.menuShown]⟩ := by
  simp [handle_message, hact, create_game_in_db, hname]

/-- C10 witness: a stray "hello" against the empty store is answered with the
generic error and the menu, and nothing changes. -/
theorem c10_stray_text_witness :
    handle_message emptyUserData "hello" 7 none db0 0 []
      = ⟨db0, [], emptyUserData, [Reply.genericError, Reply.menuShown]⟩ :=
  c10_stray_text emptyUserData "hello" 7 none db0 0 [] rfl rfl

end BoardGameBot
